import Mathlib

/-!
Verification of the request-gating and session-continuity subsystem of the
`maps-streamable-mcp-server` repository: a shallow embedding of

* `src/shared/config/env.ts` (config parsing: `parseAuthStrategy`, `parseConfig`),
* the session stores (`MemorySessionStore`, `KvSessionStore`),
* the two security adapters (`createMcpSecurityMiddleware` for Hono and
  `checkAuthAndChallenge` for Workers),

together with theorems settling the specification's claims about them.
JavaScript numbers used as timestamps (`Date.now()`) are modelled as `Nat`;
JavaScript `Map` is modelled as an insertion-ordered association list;
thrown exceptions are modelled with `Except`; `async` functions are pure
state-passing functions (each store operation returns the updated store).
Functions of the repository that are only declared, not defined, under the
analysed sources (the `shared/mcp/security.ts` validators and challenge
builder) are modelled from the specification and marked as such.
-/

namespace MapsMcp

/-! ### JavaScript `Map` as an association list -/

/-- Lookup in an insertion-ordered association list (JS `Map.get`; its
`isSome` is `Map.has`). -/
def mapFind {α : Type} : List (String × α) → String → Option α
  | [], _ => none
  | p :: m, k => if p.1 == k then some p.2 else mapFind m k

/-- JS `Map.set`: replace the value in place when the key is present,
otherwise append the new entry. -/
def mapSet {α : Type} : List (String × α) → String → α → List (String × α)
  | [], k, v => [(k, v)]
  | p :: m, k, v => if p.1 == k then (k, v) :: m else p :: mapSet m k v

/-- JS `Map.delete`. -/
def mapErase {α : Type} (m : List (String × α)) (k : String) :
    List (String × α) :=
  m.filter (fun p => !(p.1 == k))

theorem mapFind_mapSet_self {α : Type} (m : List (String × α)) (k : String)
    (v : α) : mapFind (mapSet m k v) k = some v := by
  induction m with
  | nil => simp [mapSet, mapFind]
  | cons p m ih =>
    by_cases hk : p.1 = k
    · simp [mapSet, mapFind, hk]
    · simp [mapSet, mapFind, hk, ih]

/-! ### Decimal printing and parsing of `Nat`

Models JavaScript's number formatting (`JSON.stringify` of a non-negative
integer) and its inverse as used by `JSON.parse`. -/

/-- Decimal digits of `n`, most significant first, prepended to `acc`,
with structural fuel (any `fuel > n` is enough, since `n / 10 < n`). -/
def natReprGo : Nat → Nat → List Char → List Char
  | 0, _, acc => acc
  | fuel + 1, n, acc =>
    if n < 10 then Nat.digitChar n :: acc
    else natReprGo fuel (n / 10) (Nat.digitChar (n % 10) :: acc)

/-- Decimal digits of `n`, most significant first, prepended to `acc`
(models how `JSON.stringify` renders a non-negative integer). -/
def natReprAux (n : Nat) (acc : List Char) : List Char :=
  natReprGo (n + 1) n acc

/-- Value of a decimal digit character. -/
def digitVal (c : Char) : Option Nat :=
  if c.isDigit then some (c.toNat - 48) else none

/-- Left-to-right accumulation of decimal digits. -/
def readDigits : List Char → Nat → Option Nat
  | [], acc => some acc
  | c :: cs, acc =>
    match digitVal c with
    | some d => readDigits cs (acc * 10 + d)
    | none => none

/-- Parse a non-empty all-digit character list as a `Nat`. -/
def parseNat (cs : List Char) : Option Nat :=
  match cs with
  | [] => none
  | _ :: _ => readDigits cs 0

/-- `10 ^ (number of decimal digits of n)`. -/
def tenPow : Nat → Nat
  | n =>
    if h : n < 10 then 10
    else 10 * tenPow (n / 10)
  decreasing_by exact Nat.div_lt_self (by omega) (by omega)

theorem digitVal_digitChar {n : Nat} (h : n < 10) :
    digitVal (Nat.digitChar n) = some n := by
  interval_cases n <;> decide

theorem readDigits_natReprGo :
    ∀ (fuel n : Nat), n < fuel → ∀ acc l, readDigits (natReprGo fuel n l) acc =
      readDigits l (acc * tenPow n + n) := by
  intro fuel
  induction fuel with
  | zero => intro n hn; omega
  | succ fuel ih =>
    intro n hn acc l
    by_cases h : n < 10
    · rw [natReprGo, tenPow, if_pos h, dif_pos h]
      simp [readDigits, digitVal_digitChar h]
    · rw [natReprGo, tenPow, if_neg h, dif_neg h]
      rw [ih (n / 10) (by omega)]
      simp only [readDigits, digitVal_digitChar (Nat.mod_lt n (by omega))]
      congr 1
      have h2 : (acc * tenPow (n / 10) + n / 10) * 10 + n % 10 =
          acc * (10 * tenPow (n / 10)) + (n / 10 * 10 + n % 10) := by ring
      have h3 : n / 10 * 10 + n % 10 = n := by omega
      rw [h2, h3]

theorem readDigits_natReprAux (n : Nat) :
    ∀ acc l, readDigits (natReprAux n l) acc =
      readDigits l (acc * tenPow n + n) :=
  readDigits_natReprGo (n + 1) n (by omega)

theorem natReprGo_ne_nil :
    ∀ (fuel n : Nat), n < fuel → ∀ l, natReprGo fuel n l ≠ [] := by
  intro fuel
  induction fuel with
  | zero => intro n hn; omega
  | succ fuel ih =>
    intro n hn l
    rw [natReprGo]
    by_cases h : n < 10
    · rw [if_pos h]; simp
    · rw [if_neg h]
      exact ih (n / 10) (by omega) _

theorem natReprAux_ne_nil (n : Nat) (l : List Char) : natReprAux n l ≠ [] :=
  natReprGo_ne_nil (n + 1) n (by omega) l

theorem parseNat_natReprAux (n : Nat) : parseNat (natReprAux n []) = some n := by
  have h1 : readDigits (natReprAux n []) 0 = some n := by
    rw [readDigits_natReprAux n 0 [], Nat.zero_mul, Nat.zero_add]; rfl
  obtain ⟨c, cs, hm⟩ : ∃ c cs, natReprAux n [] = c :: cs := by
    cases h : natReprAux n [] with
    | nil => exact absurd h (natReprAux_ne_nil n [])
    | cons c cs => exact ⟨c, cs, rfl⟩
  rw [hm] at h1 ⊢
  exact h1

/-! ### Session records and their JSON serialization

From `src/shared/config/storage/interface.ts`:
`type SessionRecord = { created_at: number }`. -/

/-- `SessionRecord` from `storage/interface.ts`. -/
structure SessionRecord where
  created_at : Nat
  deriving DecidableEq, Repr

/-- `JSON.stringify(value)` for a `SessionRecord`, as produced in
`KvSessionStore.put`. -/
def serializeRecord (r : SessionRecord) : String :=
  String.mk ("\x7b\"created_at\":".data ++ natReprAux r.created_at [] ++ ['\x7d'])

/-- `JSON.parse(decrypted) as SessionRecord`, as performed in
`KvSessionStore.get`; returns `none` where `JSON.parse` would throw or not
yield a record of the expected shape. -/
def parseRecord (s : String) : Option SessionRecord :=
  let pre := "\x7b\"created_at\":".data
  let cs := s.data
  if cs.take 14 = pre ∧ cs.getLast? = some '\x7d' then
    (parseNat ((cs.drop 14).dropLast)).map (fun n => ⟨n⟩)
  else none

theorem parseRecord_serializeRecord (r : SessionRecord) :
    parseRecord (serializeRecord r) = some r := by
  have hpre : ("\x7b\"created_at\":".data).length = 14 := by decide
  unfold parseRecord serializeRecord
  simp only [String.data]
  rw [List.append_assoc]
  have htake : (("\x7b\"created_at\":".data ++
      (natReprAux r.created_at [] ++ ['\x7d'])).take 14) =
      "\x7b\"created_at\":".data := by
    rw [← hpre, List.take_left]
  have hdrop : (("\x7b\"created_at\":".data ++
      (natReprAux r.created_at [] ++ ['\x7d'])).drop 14) =
      natReprAux r.created_at [] ++ ['\x7d'] := by
    rw [← hpre, List.drop_left]
  have hlast : (("\x7b\"created_at\":".data ++
      (natReprAux r.created_at [] ++ ['\x7d'])).getLast? = some '\x7d') := by
    rw [← List.append_assoc]
    rw [List.getLast?_concat]
  rw [if_pos ⟨htake, hlast⟩, hdrop]
  rw [List.dropLast_concat]
  rw [parseNat_natReprAux]
  rfl

/-! ### `MemorySessionStore` (`src/shared/config/storage/memory.ts`)

The store's methods read `Date.now()`; the embedding passes the current
time explicitly, and each operation returns the updated store.  The
periodic cleanup interval is process machinery (real time, timers) and is
not part of the per-operation semantics embedded here. -/

/-- A value of the `sessions` map:
`{ record: SessionRecord; expiresAt: number }`. -/
structure MemEntry where
  record : SessionRecord
  expiresAt : Nat
  deriving DecidableEq, Repr

/-- `MemorySessionStore`: its `ttlMs` field and its `sessions` map. -/
structure MemorySessionStore where
  ttlMs : Nat
  sessions : List (String × MemEntry)
  deriving DecidableEq, Repr

/-- `new MemorySessionStore(ttlMs)` (the map starts empty). -/
def MemorySessionStore.new (ttlMs : Nat) : MemorySessionStore :=
  { ttlMs := ttlMs, sessions := [] }

/-- `MemorySessionStore.ensure`: create the entry only when the id is not
in the map (`!this.sessions.has(sessionId)`). -/
def MemorySessionStore.ensure (s : MemorySessionStore) (sessionId : String)
    (now : Nat) : MemorySessionStore :=
  if (mapFind s.sessions sessionId).isSome then s
  else
    { s with sessions := (mapSet s.sessions sessionId
        ⟨⟨now⟩, now + s.ttlMs⟩) }

/-- `MemorySessionStore.get`: lazy expiry — an entry with
`Date.now() > entry.expiresAt` is deleted and reported absent. -/
def MemorySessionStore.get (s : MemorySessionStore) (sessionId : String)
    (now : Nat) : Option SessionRecord × MemorySessionStore :=
  match mapFind s.sessions sessionId with
  | none => (none, s)
  | some entry =>
    if now > entry.expiresAt then
      (none, { s with sessions := mapErase s.sessions sessionId })
    else
      (some entry.record, s)

/-- `MemorySessionStore.put`: upsert with `expiresAt = Date.now() + ttlMs`. -/
def MemorySessionStore.put (s : MemorySessionStore) (sessionId : String)
    (value : SessionRecord) (now : Nat) : MemorySessionStore :=
  { s with sessions := (mapSet s.sessions sessionId
      ⟨value, now + s.ttlMs⟩) }

/-- `MemorySessionStore.delete`. -/
def MemorySessionStore.del (s : MemorySessionStore) (sessionId : String) :
    MemorySessionStore :=
  { s with sessions := mapErase s.sessions sessionId }

/-! ### `KvSessionStore` (`src/shared/config/storage/kv.ts`)

The external `KVNamespace` is modelled as a string map plus two fault
flags saying whether its `get`/`put` currently throw; `encrypt`/`decrypt`
are the store's injected crypto capability, modelled as fallible string
functions.  The `expirationTtl` option passed to `kv.put` configures
expiry inside the external service and has no observable effect in this
single-service model. -/

/-- The external key-value service binding. -/
structure KVNamespace where
  data : List (String × String)
  failGet : Bool
  failPut : Bool

/-- `kv.get(key)` — resolves to the stored string or `null`, or throws. -/
def KVNamespace.get (kv : KVNamespace) (key : String) :
    Except Unit (Option String) :=
  if kv.failGet then .error () else .ok (mapFind kv.data key)

/-- `kv.put(key, value, { expirationTtl })` — stores, or throws. -/
def KVNamespace.put (kv : KVNamespace) (key value : String) :
    Except Unit KVNamespace :=
  if kv.failPut then .error ()
  else .ok { kv with data := mapSet kv.data key value }

/-- `KvSessionStore` with its constructor-injected parts. -/
structure KvSessionStore where
  kv : KVNamespace
  encrypt : String → Except Unit String
  decrypt : String → Except Unit String
  fallback : Option MemorySessionStore

/-- `private key(sessionId)`. -/
def KvSessionStore.key (sessionId : String) : String :=
  "session:" ++ sessionId

/-- The fallback read `this.fallback?.get(sessionId) ?? null` performed by
`KvSessionStore.get` when the KV path yields nothing or throws. -/
def KvSessionStore.viaFallback (s : KvSessionStore) (sessionId : String)
    (now : Nat) : Option SessionRecord × KvSessionStore :=
  match s.fallback with
  | Option.none => (Option.none, s)
  | some m =>
    ((m.get sessionId now).1, { s with fallback := some ((m.get sessionId now).2) })

/-- `KvSessionStore.get`: try the KV read and decrypt/parse; on a missing
value or any thrown error, read the fallback store instead.  A JS empty
string is falsy, so a stored `""` also takes the `!raw` branch. -/
def KvSessionStore.get (s : KvSessionStore) (sessionId : String) (now : Nat) :
    Option SessionRecord × KvSessionStore :=
  match s.kv.get (KvSessionStore.key sessionId) with
  | .error _ => s.viaFallback sessionId now
  | .ok raw =>
    if raw.getD "" = "" then s.viaFallback sessionId now
    else
      match s.decrypt (raw.getD "") with
      | .error _ => s.viaFallback sessionId now
      | .ok decrypted =>
        match parseRecord decrypted with
        | Option.none => s.viaFallback sessionId now
        | some r => (some r, s)

/-- The catch-block write of `KvSessionStore.put`: mirror only into the
fallback store, leaving the KV binding untouched. -/
def KvSessionStore.fallbackPut (s : KvSessionStore) (sessionId : String)
    (value : SessionRecord) (now : Nat) : KvSessionStore :=
  { s with fallback := s.fallback.map (fun m => m.put sessionId value now) }

/-- `KvSessionStore.put`: encrypt and write to KV, mirroring the write to
the fallback; on any thrown error, write only to the fallback. -/
def KvSessionStore.put (s : KvSessionStore) (sessionId : String)
    (value : SessionRecord) (now : Nat) : KvSessionStore :=
  match s.encrypt (serializeRecord value) with
  | .error _ => s.fallbackPut sessionId value now
  | .ok encrypted =>
    match s.kv.put (KvSessionStore.key sessionId) encrypted with
    | .error _ => s.fallbackPut sessionId value now
    | .ok newKv =>
      { s with
        kv := newKv
        fallback := s.fallback.map (fun m => m.put sessionId value now) }

/-- `KvSessionStore.ensure`: `get`, then `put` a fresh record only when
nothing was found. -/
def KvSessionStore.ensure (s : KvSessionStore) (sessionId : String)
    (now : Nat) : KvSessionStore :=
  let (existing, s') := s.get sessionId now
  if existing.isSome then s'
  else s'.put sessionId { created_at := now } now

/-! ### Configuration (`src/shared/config/env.ts`)

A raw environment value can be a string or (for Workers boolean bindings)
a boolean; an unset variable is `Option.none`.  Only the variables read by
`parseAuthStrategy` and by the fields of `UnifiedConfig` that the security
adapters consume are modelled. -/

/-- JS `String.prototype.toLowerCase()` (ASCII), character by character. -/
def jsToLower (s : String) : String :=
  String.mk (s.data.map Char.toLower)

/-- A raw environment-binding value (`process.env` entries are strings;
Workers `env` bindings may also be booleans). -/
inductive EnvVal where
  | str (s : String)
  | bool (b : Bool)
  deriving DecidableEq, Repr

/-- JavaScript `String(value || 'false')`: falsy values (`undefined`,
`""`, `false`) render as `"false"`. -/
def envValTruthyString : Option EnvVal → String
  | none => "false"
  | some (.str s) => if s = "" then "false" else s
  | some (.bool b) => if b then "true" else "false"

/-- `parseBoolean` from `env.ts`. -/
def parseBoolean (value : Option EnvVal) : Bool :=
  jsToLower (envValTruthyString value) == "true"

/-- `AuthStrategyType` (`'bearer' | 'none'`). -/
inductive AuthStrategyType where
  | bearer
  | none
  deriving DecidableEq, Repr

/-- The raw environment, restricted to the variables the security
subsystem reads. -/
structure RawEnv where
  AUTH_STRATEGY : Option String
  AUTH_ENABLED : Option EnvVal
  BEARER_TOKEN : Option String
  NODE_ENV : Option String
  MCP_PROTOCOL_VERSION : Option String
  deriving DecidableEq, Repr

/-- `parseAuthStrategy` from `env.ts`: `'none'` on an explicit `"none"`
selector or an explicit `'false'`/`false` enable flag; else `'bearer'`
when `BEARER_TOKEN` is truthy or `AUTH_ENABLED` parses to true; else
`'none'`. -/
def parseAuthStrategy (env : RawEnv) : AuthStrategyType :=
  let explicit := env.AUTH_STRATEGY.map jsToLower
  if explicit == some "none" || env.AUTH_ENABLED == some (.str "false") ||
      env.AUTH_ENABLED == some (.bool false) then
    .none
  else if env.BEARER_TOKEN.getD "" != "" || parseBoolean env.AUTH_ENABLED then
    .bearer
  else
    .none

/-- `UnifiedConfig`, restricted to the fields consumed by the security
adapters and the claims. -/
structure UnifiedConfig where
  NODE_ENV : String
  MCP_PROTOCOL_VERSION : String
  AUTH_STRATEGY : AuthStrategyType
  AUTH_ENABLED : Bool
  BEARER_TOKEN : Option String
  deriving DecidableEq, Repr

/-- `parseConfig` from `env.ts`, restricted to the modelled fields
(`NODE_ENV` and `MCP_PROTOCOL_VERSION` fall back to their defaults on a
falsy binding, mirroring `|| 'development'` and `|| '2025-06-18'`). -/
def parseConfig (env : RawEnv) : UnifiedConfig :=
  let authStrategy := parseAuthStrategy env
  { NODE_ENV := if env.NODE_ENV.getD "" = "" then "development"
      else env.NODE_ENV.getD ""
    MCP_PROTOCOL_VERSION := if env.MCP_PROTOCOL_VERSION.getD "" = ""
      then "2025-06-18" else env.MCP_PROTOCOL_VERSION.getD ""
    AUTH_STRATEGY := authStrategy
    AUTH_ENABLED := authStrategy == .bearer
    BEARER_TOKEN := env.BEARER_TOKEN }

/-! ### Request model and the `shared/mcp/security.ts` validators

The repository imports `validateOrigin`, `validateProtocolVersion` and
`buildUnauthorizedChallenge` from `src/shared/mcp/security.ts`, a file not
present among the analysed sources; those three are modelled from the
specification.  Both adapters observe only these request headers. -/

/-- The request headers the gate consumes (each absent header is `none`;
header lookup in both frameworks is case-insensitive, so one field per
logical header suffices). -/
structure RequestHeaders where
  origin : Option String
  protocolVersion : Option String
  authorization : Option String
  sessionId : Option String
  deriving DecidableEq, Repr

/-- Modelled from the spec: the allowed `Origin` values — loopback
addresses (optionally with a port). -/
def isLoopbackOrigin (o : String) : Bool :=
  ["http://127.0.0.1", "http://localhost", "http://[::1]"].any
    (fun base => o == base || (base ++ ":").data.isPrefixOf o.data)

/-- Modelled from the spec: `validateOrigin` from the missing
`shared/mcp/security.ts`.  "the request's `Origin` header must match an
allowed value (a loopback address unless a relaxed/development mode is
active). Failure → reject."  A request that supplies no `Origin` header
passes (nothing to validate); an invalid one makes the validator throw,
modelled as `Except.error` with the thrown error's message. -/
def validateOrigin (h : RequestHeaders) (isDev : Bool) : Except String Unit :=
  match h.origin with
  | Option.none => .ok ()
  | some o =>
    if isDev || isLoopbackOrigin o then .ok ()
    else .error ("Origin not allowed: " ++ o)

/-- Modelled from the spec: `validateProtocolVersion` from the missing
`shared/mcp/security.ts`.  "if a protocol-version header is present, it
must equal the single version this server supports." -/
def validateProtocolVersion (h : RequestHeaders) (supported : String) :
    Except String Unit :=
  match h.protocolVersion with
  | Option.none => .ok ()
  | some v =>
    if v == supported then .ok ()
    else .error ("Unsupported protocol version: " ++ v)

/-- The two validator calls both adapters perform, in source order. -/
def gateChecks (config : UnifiedConfig) (h : RequestHeaders) :
    Except String Unit := do
  validateOrigin h (config.NODE_ENV == "development")
  validateProtocolVersion h config.MCP_PROTOCOL_VERSION

/-- The JSON-RPC error body of a response. -/
structure JsonRpcError where
  code : Int
  message : String
  deriving DecidableEq, Repr

/-- The observable parts of an HTTP response produced by either adapter:
status, the `Mcp-Session-Id` and `WWW-Authenticate` response headers, and
the JSON-RPC error body. -/
structure HttpResponse where
  status : Nat
  sessionId : Option String
  wwwAuthenticate : Option String
  body : JsonRpcError
  deriving DecidableEq, Repr

/-- Modelled from the spec: `buildUnauthorizedChallenge` from the missing
`shared/mcp/security.ts`.  "Rejection response: HTTP 401, headers
`WWW-Authenticate: Bearer realm="MCP"[, error="<reason>"]` and a
session-id header ..., body a JSON-RPC-shaped error object"; both
adapters then copy its status, `WWW-Authenticate` value and body into
their response and add the `Mcp-Session-Id` header themselves. -/
def buildUnauthorizedChallenge (origin sid : String) (message : Option String) :
    HttpResponse :=
  let _ := origin
  { status := 401
    sessionId := some sid
    wwwAuthenticate := some ("Bearer realm=\"MCP\"" ++
      (match message with
       | Option.none => ""
       | some m => ", error=\"" ++ m ++ "\""))
    body := { code := -32000, message := message.getD "Unauthorized" } }

/-! ### The Hono adapter (`src/adapters/http-hono/middleware.security.ts`) -/

/-- The `authContext` value the Hono middleware attaches on admission
(`authHeaders`/`resolvedHeaders` each hold the raw `Authorization`
value under the `authorization` key). -/
structure AuthContext where
  strategy : AuthStrategyType
  authHeadersAuthorization : String
  resolvedHeadersAuthorization : String
  deriving DecidableEq, Repr

/-- What the Hono middleware does with a request: call the next handler
(optionally after attaching an auth context), or terminate with a
response. -/
inductive GateOutcome where
  | proceed (authContext : Option AuthContext)
  | respond (resp : HttpResponse)
  deriving DecidableEq, Repr

/-- The characters JavaScript treats as whitespace: the ECMAScript
WhiteSpace and LineTerminator sets, used identically by
`String.prototype.trim()` and by the regex class `\s` — TAB, LF, VT,
FF, CR, SPACE, NBSP, OGHAM SPACE MARK, the Zs range U+2000–U+200A, LINE
SEPARATOR, PARAGRAPH SEPARATOR, NARROW NO-BREAK SPACE, MEDIUM
MATHEMATICAL SPACE, IDEOGRAPHIC SPACE and ZWNBSP. -/
def jsWhitespace (c : Char) : Bool :=
  c == '\t' || c == '\n' || c == '\x0b' || c == '\x0c' || c == '\r' ||
  c == ' ' || c == '\u00A0' || c == '\u1680' ||
  (decide (0x2000 ≤ c.toNat) && decide (c.toNat ≤ 0x200A)) ||
  c == '\u2028' || c == '\u2029' || c == '\u202F' || c == '\u205F' ||
  c == '\u3000' || c == '\uFEFF'

/-- The ECMAScript LineTerminator set: what the regex atom `.` (without
the `s` flag) refuses to match. -/
def jsLineTerminator (c : Char) : Bool :=
  c == '\n' || c == '\r' || c == '\u2028' || c == '\u2029'

/-- JS `String.prototype.trim()`: strip `jsWhitespace` characters from
both ends. -/
def jsTrim (s : String) : String :=
  String.mk (((s.data.dropWhile jsWhitespace).reverse.dropWhile
    jsWhitespace).reverse)

/-- JS `auth.split(' ', 2)`: the first field (before the first space) and,
when a space occurs, the second field (`none` models `undefined`). -/
def jsSplit2 (s : String) : String × Option String :=
  match s.data.dropWhile (fun c => !(c == ' ')) with
  | [] => (String.mk (s.data.takeWhile (fun c => !(c == ' '))), Option.none)
  | _ :: tail =>
    (String.mk (s.data.takeWhile (fun c => !(c == ' '))),
     some (String.mk (tail.takeWhile (fun c => !(c == ' ')))))

/-- The Hono middleware's bearer extraction:
`const [scheme, token] = auth.split(' ', 2);`
`const bearer = scheme?.toLowerCase() === 'bearer' ? token?.trim() : '';`
(a JS `undefined` result is collapsed to `""`, which is what the falsy
check `if (!bearer)` and the later string comparison observe). -/
def honoExtractBearer (auth : String) : String :=
  if jsToLower (jsSplit2 auth).1 == "bearer" then
    jsTrim ((jsSplit2 auth).2.getD "")
  else ""

/-- `challengeResponse` from the Hono adapter: build the challenge, set
the `Mcp-Session-Id` and `WWW-Authenticate` headers, return the JSON
body with the challenge's status. -/
def challengeResponse (origin sid : String) (message : Option String) :
    HttpResponse :=
  let challenge := buildUnauthorizedChallenge origin sid message
  { status := challenge.status
    sessionId := some sid
    wwwAuthenticate := challenge.wwwAuthenticate
    body := challenge.body }

/-- The 500 response produced by the Hono middleware's `catch` block:
`{ jsonrpc, error: { code: -32603, message: error.message || 'Internal
server error' }, id: null }`. -/
def honoInternalError (msg : String) : HttpResponse :=
  { status := 500
    sessionId := Option.none
    wwwAuthenticate := Option.none
    body := { code := -32603
              message := if msg = "" then "Internal server error" else msg } }

/-- The request handler returned by `createMcpSecurityMiddleware`.
`requestUrlOrigin` is `new URL(c.req.url).origin`; `freshUuid` the value
`randomUUID()` would return if called.  A thrown validator error reaches
the surrounding `catch`, which answers with a 500. -/
def honoSecurityMiddleware (config : UnifiedConfig) (h : RequestHeaders)
    (requestUrlOrigin freshUuid : String) : GateOutcome :=
  match gateChecks config h with
  | .error msg => .respond (honoInternalError msg)
  | .ok _ =>
    if !config.AUTH_ENABLED || config.AUTH_STRATEGY == .none then
      .proceed Option.none
    else if h.authorization.getD "" = "" then
      .respond (challengeResponse requestUrlOrigin (h.sessionId.getD freshUuid)
        Option.none)
    else if honoExtractBearer (h.authorization.getD "") = "" then
      .respond (challengeResponse requestUrlOrigin (h.sessionId.getD freshUuid)
        (some "Bearer token required"))
    else if config.AUTH_STRATEGY == .bearer then
      if config.BEARER_TOKEN.getD "" = "" then
        .respond (challengeResponse requestUrlOrigin (h.sessionId.getD freshUuid)
          (some "Server misconfigured"))
      else if honoExtractBearer (h.authorization.getD "") !=
          config.BEARER_TOKEN.getD "" then
        .respond (challengeResponse requestUrlOrigin (h.sessionId.getD freshUuid)
          (some "Invalid token"))
      else
        .proceed (some { strategy := .bearer
                         authHeadersAuthorization := h.authorization.getD ""
                         resolvedHeadersAuthorization := h.authorization.getD "" })
    else
      .proceed Option.none

/-! ### The Workers adapter (the unnamed Workers security middleware file) -/

/-- The capture group of `\s+(.+)$` matched against `rest` (the text
after the case-insensitive literal `Bearer`): at least one `\s`
(`jsWhitespace`) character, then a non-empty group of
non-LineTerminator characters reaching the end of the input (`$`
without the `m` flag matches only there); `\s+` is greedy, backing off
only when `(.+)` would otherwise be empty, in which case the group is
the last character of the whitespace run (provided `.` can match it). -/
def regexGroup (rest : List Char) : Option (List Char) :=
  if rest.dropWhile jsWhitespace ≠ [] then
    if rest.takeWhile jsWhitespace ≠ [] ∧
        ¬ (rest.dropWhile jsWhitespace).any jsLineTerminator then
      some (rest.dropWhile jsWhitespace)
    else Option.none
  else
    match rest.getLast? with
    | some c =>
      if rest.length ≥ 2 ∧ jsLineTerminator c = false then some [c]
      else Option.none
    | Option.none => Option.none

/-- The capture group of `authHeader.match(/^\s*Bearer\s+(.+)$/i)`.
`^\s*` is forced maximal (the next atom `B` is not whitespace); then the
case-insensitive literal `Bearer`, then `\s+(.+)$` via `regexGroup`. -/
def workersBearerGroup (auth : String) : Option String :=
  if ((auth.data.dropWhile jsWhitespace).take 6).map Char.toLower =
      "bearer".data then
    (regexGroup ((auth.data.dropWhile jsWhitespace).drop 6)).map String.mk
  else Option.none

/-- The Workers handler's bearer extraction:
`const match = authHeader?.match(/^\s*Bearer\s+(.+)$/i);`
`const bearer = match?.[1]?.trim();`
(again collapsing `undefined` to `""`, the value the falsy check and the
comparison observe). -/
def workersExtractBearer (auth : String) : String :=
  match workersBearerGroup auth with
  | some g => jsTrim g
  | Option.none => ""

/-- `buildChallengeResponse` from the Workers adapter: serialize the
challenge body and attach the `Mcp-Session-Id` and `WWW-Authenticate`
headers (its `Content-Type` header and CORS wrapper have no analogue in
the observable parts modelled here). -/
def buildChallengeResponse (origin sid : String) (message : Option String) :
    HttpResponse :=
  let challenge := buildUnauthorizedChallenge origin sid message
  { status := challenge.status
    sessionId := some sid
    wwwAuthenticate := challenge.wwwAuthenticate
    body := challenge.body }

/-- The `authHeader?.match(...)` optional chain of the Workers adapter:
a missing header yields the same falsy value as a failed match. -/
def workersBearer (authHeader : Option String) : String :=
  match authHeader with
  | Option.none => ""
  | some a => workersExtractBearer a

/-- `checkAuthAndChallenge` from the Workers adapter: `none` means
authorized (the caller proceeds); `some response` must be returned
immediately.  Unlike the Hono adapter, the two validators are wrapped in
a local `try`/`catch` that converts a thrown error into a 401 challenge
carrying the error's message, and the session id is supplied by the
caller. -/
def checkAuthAndChallenge (config : UnifiedConfig) (h : RequestHeaders)
    (sid requestUrlOrigin : String) : Option HttpResponse :=
  match gateChecks config h with
  | .error msg => some (buildChallengeResponse requestUrlOrigin sid (some msg))
  | .ok _ =>
    if !config.AUTH_ENABLED || config.AUTH_STRATEGY == .none then
      Option.none
    else if workersBearer h.authorization = "" then
      some (buildChallengeResponse requestUrlOrigin sid Option.none)
    else if config.AUTH_STRATEGY == .bearer then
      if config.BEARER_TOKEN.getD "" = "" then
        some (buildChallengeResponse requestUrlOrigin sid
          (some "Server misconfigured: BEARER_TOKEN not set"))
      else if workersBearer h.authorization != config.BEARER_TOKEN.getD "" then
        some (buildChallengeResponse requestUrlOrigin sid
          (some "Invalid token"))
      else
        Option.none
    else
      Option.none

/-! ### Facts about the two bearer extractions -/

theorem getLast?_prop {p : Char → Prop} :
    ∀ (l : List Char) (c : Char), (∀ x ∈ l, p x) → l.getLast? = some c → p c
  | [], _, _, h => by simp at h
  | [a], c, hall, h => by
    simp only [List.getLast?] at h
    cases h
    exact hall a (by simp)
  | _ :: b :: l, c, hall, h => by
    rw [List.getLast?_cons_cons] at h
    exact getLast?_prop (b :: l) c (fun x hx => hall x (by simp [hx])) h

theorem dropWhile_eq_self_of_all {p : Char → Bool} :
    ∀ l : List Char, (∀ c ∈ l, p c = false) → l.dropWhile p = l
  | [], _ => rfl
  | a :: l, h => by simp [List.dropWhile, h a (by simp)]

theorem takeWhile_eq_nil_of_all {p : Char → Bool} :
    ∀ l : List Char, (∀ c ∈ l, p c = false) → l.takeWhile p = []
  | [], _ => rfl
  | a :: l, h => by simp [List.takeWhile, h a (by simp)]

theorem takeWhile_eq_self_of_all {p : Char → Bool} :
    ∀ l : List Char, (∀ c ∈ l, p c = true) → l.takeWhile p = l
  | [], _ => rfl
  | a :: l, h => by
    simp only [List.takeWhile, h a (by simp)]
    exact congrArg (a :: ·) (takeWhile_eq_self_of_all l (fun c hc => h c (by simp [hc])))

/-- A header token containing no character JavaScript treats as
whitespace. -/
def NoWs (t : String) : Prop :=
  ∀ c ∈ t.data, jsWhitespace c = false

instance (t : String) : Decidable (NoWs t) :=
  inferInstanceAs (Decidable (∀ c ∈ t.data, jsWhitespace c = false))

theorem jsWhitespace_of_lineTerminator {c : Char}
    (h : jsLineTerminator c = true) : jsWhitespace c = true := by
  unfold jsLineTerminator at h
  simp only [Bool.or_eq_true, beq_iff_eq] at h
  rcases h with ((h | h) | h) | h <;> subst h <;> decide

theorem jsTrim_eq_self {t : String} (h : NoWs t) : jsTrim t = t := by
  unfold jsTrim
  rw [dropWhile_eq_self_of_all _ h]
  rw [dropWhile_eq_self_of_all _ (fun c hc => h c (List.mem_reverse.mp hc))]
  rw [List.reverse_reverse]

theorem data_bearer_append (t : String) :
    ("Bearer " ++ t).data = 'B' :: 'e' :: 'a' :: 'r' :: 'e' :: 'r' :: ' ' :: t.data := by
  cases t with
  | mk d => rfl

theorem no_space_of_noWs {t : String} (hw : NoWs t) :
    ∀ c ∈ t.data, (c == ' ') = false := by
  intro c hc
  have := hw c hc
  simp only [beq_eq_false_iff_ne, ne_eq]
  intro he
  rw [he, show jsWhitespace ' ' = true from by decide] at this
  simp at this

theorem jsSplit2_bearer {t : String} (hw : NoWs t) :
    jsSplit2 ("Bearer " ++ t) = ("Bearer", some t) := by
  have hsp := no_space_of_noWs hw
  have hdrop : ("Bearer " ++ t).data.dropWhile (fun c => !(c == ' ')) =
      ' ' :: t.data := by
    rw [data_bearer_append]
    simp [List.dropWhile]
  have htake : ("Bearer " ++ t).data.takeWhile (fun c => !(c == ' ')) =
      ['B','e','a','r','e','r'] := by
    rw [data_bearer_append]
    simp [List.takeWhile]
  have htt : t.data.takeWhile (fun c => !(c == ' ')) = t.data :=
    takeWhile_eq_self_of_all t.data (fun c hc => by simp [hsp c hc])
  unfold jsSplit2
  rw [hdrop]
  dsimp only
  rw [htake, htt]

theorem honoExtractBearer_wellFormed {t : String} (hw : NoWs t) :
    honoExtractBearer ("Bearer " ++ t) = t := by
  unfold honoExtractBearer
  rw [jsSplit2_bearer hw]
  have hb : (jsToLower "Bearer" == "bearer") = true := by decide
  dsimp only
  rw [if_pos hb]
  exact jsTrim_eq_self hw

theorem regexGroup_wellFormed {t : String} (hdne : t.data ≠ []) (hw : NoWs t) :
    regexGroup (' ' :: t.data) = some t.data := by
  have hsp : jsWhitespace ' ' = true := by decide
  have hdropw : (' ' :: t.data).dropWhile jsWhitespace = t.data := by
    simp only [List.dropWhile]
    rw [hsp]
    exact dropWhile_eq_self_of_all _ hw
  have htw : (' ' :: t.data).takeWhile jsWhitespace ≠ [] := by
    simp [List.takeWhile, hsp]
  have hany : ¬ (t.data.any jsLineTerminator = true) := by
    intro h
    obtain ⟨c, hc, hlt⟩ := List.any_eq_true.mp h
    have h1 := jsWhitespace_of_lineTerminator hlt
    rw [hw c hc] at h1
    exact Bool.noConfusion h1
  unfold regexGroup
  rw [hdropw]
  rw [if_pos hdne, if_pos ⟨htw, hany⟩]

theorem workersBearerGroup_wellFormed {t : String} (ht : t ≠ "") (hw : NoWs t) :
    workersBearerGroup ("Bearer " ++ t) = some t := by
  have hdne : t.data ≠ [] := by
    intro h
    apply ht
    cases t with
    | mk d => simp at h; rw [h]
  have hdrop0 : ("Bearer " ++ t).data.dropWhile jsWhitespace =
      ("Bearer " ++ t).data := by
    rw [data_bearer_append]
    simp [List.dropWhile, show jsWhitespace 'B' = false from by decide]
  unfold workersBearerGroup
  rw [hdrop0, data_bearer_append]
  have h2 : (('B' :: 'e' :: 'a' :: 'r' :: 'e' :: 'r' :: ' ' :: t.data).take 6).map
      Char.toLower = "bearer".data := rfl
  rw [if_pos h2]
  have h3 : ('B' :: 'e' :: 'a' :: 'r' :: 'e' :: 'r' :: ' ' :: t.data).drop 6 =
      ' ' :: t.data := rfl
  rw [h3, regexGroup_wellFormed hdne hw]
  rfl

theorem workersExtractBearer_wellFormed {t : String} (ht : t ≠ "")
    (hw : NoWs t) : workersExtractBearer ("Bearer " ++ t) = t := by
  unfold workersExtractBearer
  rw [workersBearerGroup_wellFormed ht hw]
  exact jsTrim_eq_self hw

/-! ### Store lemmas -/

theorem mapSet_mapSet_self {α : Type} (m : List (String × α)) (k : String)
    (v : α) : mapSet (mapSet m k v) k v = mapSet m k v := by
  induction m with
  | nil => simp [mapSet]
  | cons p m ih =>
    by_cases hk : p.1 = k
    · simp [mapSet, hk]
    · simp [mapSet, hk, ih]

theorem memGet_hit {m : MemorySessionStore} {id : String} {now : Nat}
    {r : SessionRecord} (h : (m.get id now).1 = some r) :
    m.get id now = (some r, m) := by
  unfold MemorySessionStore.get at h ⊢
  cases hf : mapFind m.sessions id with
  | none =>
    rw [hf] at h
    simp at h
  | some e =>
    rw [hf] at h
    dsimp only at h ⊢
    by_cases he : now > e.expiresAt
    · rw [if_pos he] at h
      simp at h
    · rw [if_neg he] at h ⊢
      simp at h
      rw [h]

theorem memGet_put_same (m : MemorySessionStore) (id : String)
    (v : SessionRecord) (now : Nat) :
    (m.put id v now).get id now = (some v, m.put id v now) := by
  unfold MemorySessionStore.get MemorySessionStore.put
  simp only [mapFind_mapSet_self]
  rw [if_neg (by omega)]

theorem memEnsure_of_present {m : MemorySessionStore} {id : String}
    (now : Nat) (h : (mapFind m.sessions id).isSome) : m.ensure id now = m := by
  unfold MemorySessionStore.ensure
  rw [if_pos h]

theorem memEnsure_present (m : MemorySessionStore) (id : String) (now : Nat) :
    (mapFind (m.ensure id now).sessions id).isSome := by
  unfold MemorySessionStore.ensure
  by_cases h : (mapFind m.sessions id).isSome
  · rw [if_pos h]; exact h
  · rw [if_neg h]
    simp [mapFind_mapSet_self]

theorem memEnsure_idem (m : MemorySessionStore) (id : String) (n₁ n₂ : Nat) :
    (m.ensure id n₁).ensure id n₂ = m.ensure id n₁ :=
  memEnsure_of_present n₂ (memEnsure_present m id n₁)

/-- The result of the direct KV read attempt inside `KvSessionStore.get`
(everything before any fallback is consulted); independent of the clock
and of the fallback store. -/
def kvDirectRead (s : KvSessionStore) (id : String) : Option SessionRecord :=
  match s.kv.get (KvSessionStore.key id) with
  | .error _ => Option.none
  | .ok raw =>
    if raw.getD "" = "" then Option.none
    else
      match s.decrypt (raw.getD "") with
      | .error _ => Option.none
      | .ok decrypted => parseRecord decrypted

theorem kvGet_eq (s : KvSessionStore) (id : String) (now : Nat) :
    s.get id now =
      match kvDirectRead s id with
      | some r => (some r, s)
      | Option.none => s.viaFallback id now := by
  unfold KvSessionStore.get kvDirectRead
  cases hkv : s.kv.get (KvSessionStore.key id) with
  | error e => rfl
  | ok raw =>
    dsimp only
    by_cases hraw : raw.getD "" = ""
    · rw [if_pos hraw, if_pos hraw]
    · rw [if_neg hraw, if_neg hraw]
      cases hdec : s.decrypt (raw.getD "") with
      | error e => rfl
      | ok d =>
        dsimp only
        cases hpr : parseRecord d with
        | none => rfl
        | some r => rfl

theorem kvEnsure_eq (s : KvSessionStore) (id : String) (now : Nat) :
    s.ensure id now =
      (if ((s.get id now).1).isSome then (s.get id now).2
       else (s.get id now).2.put id { created_at := now } now) := by
  unfold KvSessionStore.ensure
  rcases h : s.get id now with ⟨e, s2⟩
  simp [h]

theorem kv_update_fallback_self {s : KvSessionStore} {m : MemorySessionStore}
    (h : s.fallback = some m) : { s with fallback := some m } = s := by
  cases s with
  | mk kv enc dec fb =>
    simp only at h
    subst h
    rfl

theorem kvDirectRead_congr {s t : KvSessionStore} (id : String)
    (hkv : t.kv = s.kv) (hdec : t.decrypt = s.decrypt) :
    kvDirectRead t id = kvDirectRead s id := by
  unfold kvDirectRead KVNamespace.get
  rw [hkv, hdec]

/-- After `ensure`, `get` at the same instant is a stable hit: it returns
some record and leaves the store unchanged (given a working KV binding, a
fallback store, and a decryption that inverts the encryption). -/
theorem kv_ensure_stable_get
    (s : KvSessionStore) (id : String) (now : Nat) (m : MemorySessionStore)
    (hg : s.kv.failGet = false) (hp : s.kv.failPut = false)
    (hfb : s.fallback = some m)
    (hrt : ∀ x c, s.encrypt x = .ok c → s.decrypt c = .ok x) :
    ∃ r, (s.ensure id now).get id now = (some r, s.ensure id now) := by
  obtain ⟨⟨data, fg, fp⟩, enc, dec, fb⟩ := s
  simp only at hg hp hfb hrt
  subst hg
  subst hp
  subst hfb
  set s : KvSessionStore := ⟨⟨data, false, false⟩, enc, dec, some m⟩ with hs
  cases hd : kvDirectRead s id with
  | some r =>
    have hget : s.get id now = (some r, s) := by
      rw [kvGet_eq, hd]
    have hens : s.ensure id now = s := by
      rw [kvEnsure_eq, hget]
      simp
    rw [hens]
    exact ⟨r, hget⟩
  | none =>
    have hvf : s.get id now = s.viaFallback id now := by
      rw [kvGet_eq, hd]
    cases hm1 : (m.get id now).1 with
    | some rm =>
      have hmg : m.get id now = (some rm, m) := memGet_hit hm1
      have hget : s.get id now = (some rm, s) := by
        rw [hvf]
        unfold KvSessionStore.viaFallback
        dsimp only
        rw [hmg]
      have hens : s.ensure id now = s := by
        rw [kvEnsure_eq, hget]
        simp
      rw [hens]
      exact ⟨rm, hget⟩
    | none =>
      have hget : s.get id now =
          (Option.none, { s with fallback := some ((m.get id now).2) }) := by
        rw [hvf]
        unfold KvSessionStore.viaFallback
        dsimp only
        rw [hm1]
      set m2 : MemorySessionStore := (m.get id now).2 with hm2
      set s' : KvSessionStore := { s with fallback := some m2 } with hs'
      have hens : s.ensure id now = s'.put id { created_at := now } now := by
        rw [kvEnsure_eq, hget]
        simp
      rw [hens]
      -- the written record is read back, whichever path `put` took
      cases henc : enc (serializeRecord { created_at := now }) with
      | error e =>
        have hput : s'.put id { created_at := now } now =
            { s' with fallback := some (m2.put id { created_at := now } now) } := by
          unfold KvSessionStore.put KvSessionStore.fallbackPut
          dsimp only [hs']
          rw [henc]
          rfl
        rw [hput]
        set s₁ : KvSessionStore :=
          { s' with fallback := some (m2.put id { created_at := now } now) }
          with hs₁
        have hd₁ : kvDirectRead s₁ id = Option.none := by
          have hcongr : kvDirectRead s₁ id = kvDirectRead s id :=
            kvDirectRead_congr id rfl rfl
          rw [hcongr, hd]
        refine ⟨{ created_at := now }, ?_⟩
        rw [kvGet_eq, hd₁]
        unfold KvSessionStore.viaFallback
        dsimp only [hs₁]
        rw [memGet_put_same]
      | ok ct =>
        have hput : s'.put id { created_at := now } now =
            ⟨⟨mapSet data (KvSessionStore.key id) ct, false, false⟩, enc, dec,
              some (m2.put id { created_at := now } now)⟩ := by
          unfold KvSessionStore.put KVNamespace.put
          dsimp only [hs']
          rw [henc]
          rfl
        rw [hput]
        set s₁ : KvSessionStore :=
          ⟨⟨mapSet data (KvSessionStore.key id) ct, false, false⟩, enc, dec,
            some (m2.put id { created_at := now } now)⟩ with hs₁
        by_cases hct : ct = ""
        · have hd₁ : kvDirectRead s₁ id = Option.none := by
            unfold kvDirectRead KVNamespace.get
            dsimp only [hs₁]
            rw [mapFind_mapSet_self]
            simp [hct]
          refine ⟨{ created_at := now }, ?_⟩
          rw [kvGet_eq, hd₁]
          unfold KvSessionStore.viaFallback
          dsimp only [hs₁]
          rw [memGet_put_same]
        · have hd₁ : kvDirectRead s₁ id = some { created_at := now } := by
            unfold kvDirectRead KVNamespace.get
            dsimp only [hs₁]
            rw [mapFind_mapSet_self]
            have hdec2 : dec ct = .ok (serializeRecord { created_at := now }) :=
              hrt _ ct henc
            simp [hct, hdec2, parseRecord_serializeRecord]
          refine ⟨{ created_at := now }, ?_⟩
          rw [kvGet_eq, hd₁]

/-- Second `ensure` at the same instant is the identity. -/
theorem kv_ensure_idem
    (s : KvSessionStore) (id : String) (now : Nat) (m : MemorySessionStore)
    (hg : s.kv.failGet = false) (hp : s.kv.failPut = false)
    (hfb : s.fallback = some m)
    (hrt : ∀ x c, s.encrypt x = .ok c → s.decrypt c = .ok x) :
    (s.ensure id now).ensure id now = s.ensure id now := by
  obtain ⟨r, hr⟩ := kv_ensure_stable_get s id now m hg hp hfb hrt
  rw [kvEnsure_eq, hr]
  simp

/-! ### Claims about the session stores -/

/-- C8: For a VolatileStore with TTL = 1000ms under a simulated clock, a
record written by `put` at t=0 is returned by `get` when queried at t=999
and is reported absent when queried at t=1001. -/
theorem C8_volatile_ttl_boundary (id : String) (r : SessionRecord) :
    ((((MemorySessionStore.new 1000).put id r 0).get id 999).1 = some r) ∧
    ((((MemorySessionStore.new 1000).put id r 0).get id 1001).1 =
      Option.none) := by
  constructor
  · unfold MemorySessionStore.new MemorySessionStore.put MemorySessionStore.get
    simp only [mapFind_mapSet_self]
    rw [if_neg (by omega)]
  · unfold MemorySessionStore.new MemorySessionStore.put MemorySessionStore.get
    simp only [mapFind_mapSet_self]
    rw [if_pos (by omega)]

/-- C10: On a VolatileStore state whose map contains an entry for `id` —
expired or not — `ensure(id)` leaves the map unchanged (it tests map
membership, not expiry), so an expired unswept entry is not refreshed and
a later `get` still reports it absent. -/
theorem C10_ensure_ignores_expiry (m : MemorySessionStore) (id : String)
    (e : MemEntry) (n n' : Nat) (hfind : mapFind m.sessions id = some e)
    (hexp : n' > e.expiresAt) :
    m.ensure id n = m ∧ (m.get id n').1 = Option.none := by
  constructor
  · exact memEnsure_of_present n (by rw [hfind]; rfl)
  · unfold MemorySessionStore.get
    simp only [hfind]
    rw [if_pos hexp]

/-- C10 witness: an entry for "s" that expired at t=1000 is not refreshed
by `ensure` at t=5000, and `get` at t=5000 reports it absent. -/
theorem C10_ensure_ignores_expiry_witness :
    (({ ttlMs := 1000, sessions := [("s", ⟨⟨0⟩, 1000⟩)] } :
        MemorySessionStore).ensure "s" 5000 =
      { ttlMs := 1000, sessions := [("s", ⟨⟨0⟩, 1000⟩)] }) ∧
    ((({ ttlMs := 1000, sessions := [("s", ⟨⟨0⟩, 1000⟩)] } :
        MemorySessionStore).get "s" 5000).1 = Option.none) :=
  C10_ensure_ignores_expiry _ "s" ⟨⟨0⟩, 1000⟩ 5000 5000 (by decide) (by decide)

/-- C6: `ensure(id)` creates a record (with `created_at = now`) only when
the id is absent, never overwrites an existing record's `created_at`, and
is idempotent: a second `ensure` leaves the store as after the first.
For the MemorySessionStore this holds for every state and pair of call
instants; for the KvSessionStore it holds at any single instant for every
state whose KV binding is working, whose fallback store is attached, and
whose decryption inverts its encryption. -/
theorem C6_ensure_idempotent :
    (∀ (m : MemorySessionStore) (id : String) (n₁ n₂ : Nat),
      ((mapFind m.sessions id).isSome → m.ensure id n₁ = m) ∧
      (mapFind m.sessions id = Option.none →
        mapFind (m.ensure id n₁).sessions id =
          some ⟨⟨n₁⟩, n₁ + m.ttlMs⟩) ∧
      (m.ensure id n₁).ensure id n₂ = m.ensure id n₁) ∧
    (∀ (s : KvSessionStore) (id : String) (now : Nat) (m : MemorySessionStore),
      s.kv.failGet = false → s.kv.failPut = false → s.fallback = some m →
      (∀ x c, s.encrypt x = .ok c → s.decrypt c = .ok x) →
      (s.ensure id now).ensure id now = s.ensure id now) := by
  constructor
  · intro m id n₁ n₂
    refine ⟨memEnsure_of_present n₁, ?_, memEnsure_idem m id n₁ n₂⟩
    intro habs
    unfold MemorySessionStore.ensure
    simp only [habs, Option.isSome_none, Bool.false_eq_true, if_false]
    exact mapFind_mapSet_self _ _ _
  · exact fun s id now m hg hp hfb hrt => kv_ensure_idem s id now m hg hp hfb hrt

/-- C6 witness: both parts of the idempotence claim at concrete inputs —
a memory store already holding "s", and a KV store over an empty working
binding with identity encryption and an attached fallback. -/
theorem C6_ensure_idempotent_witness :
    ((({ ttlMs := 1000, sessions := [("s", ⟨⟨7⟩, 900⟩)] } :
        MemorySessionStore).ensure "s" 500 =
      { ttlMs := 1000, sessions := [("s", ⟨⟨7⟩, 900⟩)] }) ∧
     ((((⟨⟨[], false, false⟩, fun x => .ok x, fun x => .ok x,
          some { ttlMs := 1000, sessions := [] }⟩ :
        KvSessionStore).ensure "sid" 5).ensure "sid" 5) =
      ((⟨⟨[], false, false⟩, fun x => .ok x, fun x => .ok x,
          some { ttlMs := 1000, sessions := [] }⟩ :
        KvSessionStore).ensure "sid" 5))) :=
  ⟨(C6_ensure_idempotent.1
      { ttlMs := 1000, sessions := [("s", ⟨⟨7⟩, 900⟩)] } "s" 500 0).1
    (by decide),
   C6_ensure_idempotent.2
    ⟨⟨[], false, false⟩, fun x => .ok x, fun x => .ok x,
      some { ttlMs := 1000, sessions := [] }⟩ "sid" 5
    { ttlMs := 1000, sessions := [] } rfl rfl rfl
    (fun x c h => by cases h; rfl)⟩

/-- C7: With a KV binding that throws on every `get` and `put` and a
fallback VolatileStore attached, `put(id, rec)` followed by `get(id)`
(within the fallback's TTL) surfaces no error and returns the written
record, served by the fallback. -/
theorem C7_durable_fallback_roundtrip (s : KvSessionStore) (id : String)
    (rec : SessionRecord) (n₁ n₂ : Nat) (m : MemorySessionStore)
    (hg : s.kv.failGet = true) (hp : s.kv.failPut = true)
    (hfb : s.fallback = some m) (ht : n₂ ≤ n₁ + m.ttlMs) :
    ((s.put id rec n₁).get id n₂).1 = some rec := by
  obtain ⟨⟨data, fg, fp⟩, enc, dec, fb⟩ := s
  simp only at hg hp hfb
  subst hg
  subst hp
  subst hfb
  have hput : (KvSessionStore.put ⟨⟨data, true, true⟩, enc, dec, some m⟩
      id rec n₁) =
      ⟨⟨data, true, true⟩, enc, dec, some (m.put id rec n₁)⟩ := by
    unfold KvSessionStore.put KVNamespace.put KvSessionStore.fallbackPut
    dsimp only
    cases henc : enc (serializeRecord rec) with
    | error e => rfl
    | ok ct => rfl
  rw [hput]
  have hkvget : (⟨data, true, true⟩ : KVNamespace).get (KvSessionStore.key id) =
      .error () := by
    unfold KVNamespace.get
    simp
  unfold KvSessionStore.get
  dsimp only
  rw [hkvget]
  unfold KvSessionStore.viaFallback
  dsimp only
  unfold MemorySessionStore.put MemorySessionStore.get
  simp only [mapFind_mapSet_self]
  rw [if_neg (show ¬ n₂ > n₁ + m.ttlMs by omega)]

/-- C7 witness: the roundtrip at a concrete all-failing KV store with a
fallback of TTL 1000, written at t=0 and read at t=1000. -/
theorem C7_durable_fallback_roundtrip_witness :
    (((⟨⟨[("k", "stale")], true, true⟩, fun x => .ok x, fun x => .ok x,
        some { ttlMs := 1000, sessions := [] }⟩ :
      KvSessionStore).put "sid" ⟨42⟩ 0).get "sid" 1000).1 = some ⟨42⟩ :=
  C7_durable_fallback_roundtrip
    ⟨⟨[("k", "stale")], true, true⟩, fun x => .ok x, fun x => .ok x,
      some { ttlMs := 1000, sessions := [] }⟩
    "sid" ⟨42⟩ 0 1000 { ttlMs := 1000, sessions := [] }
    rfl rfl rfl (by decide)

/-! ### Claim about configuration resolution -/

/-- The auth-strategy resolution as the specification words it: `none`
when the explicit strategy selector (lowercased) equals `"none"` or the
enable flag is explicitly the string or boolean `false`; otherwise
`bearer` when a (non-empty) bearer secret is set or the enable flag
parses to true; otherwise `none`. -/
def authStrategySpec (env : RawEnv) : AuthStrategyType :=
  if env.AUTH_STRATEGY.map jsToLower = some "none" ∨
      env.AUTH_ENABLED = some (.str "false") ∨
      env.AUTH_ENABLED = some (.bool false) then
    .none
  else if env.BEARER_TOKEN.getD "" ≠ "" ∨ parseBoolean env.AUTH_ENABLED = true then
    .bearer
  else
    .none

/-- C9: `parseAuthStrategy` resolves exactly as the specification
describes, and the resulting config's `AUTH_ENABLED` field is true
exactly when the resolved strategy is `bearer`. -/
theorem C9_auth_strategy_resolution (env : RawEnv) :
    parseAuthStrategy env = authStrategySpec env ∧
    ((parseConfig env).AUTH_ENABLED = true ↔
      (parseConfig env).AUTH_STRATEGY = .bearer) := by
  constructor
  · unfold parseAuthStrategy authStrategySpec
    by_cases h1 : env.AUTH_STRATEGY.map jsToLower = some "none" ∨
        env.AUTH_ENABLED = some (.str "false") ∨
        env.AUTH_ENABLED = some (.bool false)
    · rw [if_pos h1]
      have hb : (env.AUTH_STRATEGY.map jsToLower == some "none" ||
          env.AUTH_ENABLED == some (.str "false") ||
          env.AUTH_ENABLED == some (.bool false)) = true := by
        rcases h1 with h | h | h <;> simp [h]
      rw [if_pos hb]
    · rw [if_neg h1]
      have hb : (env.AUTH_STRATEGY.map jsToLower == some "none" ||
          env.AUTH_ENABLED == some (.str "false") ||
          env.AUTH_ENABLED == some (.bool false)) = false := by
        push_neg at h1
        simp [h1.1, h1.2.1, h1.2.2]
      rw [if_neg (by simp [hb])]
      by_cases h2 : env.BEARER_TOKEN.getD "" ≠ "" ∨
          parseBoolean env.AUTH_ENABLED = true
      · rw [if_pos h2]
        have hb2 : (env.BEARER_TOKEN.getD "" != "" ||
            parseBoolean env.AUTH_ENABLED) = true := by
          rcases h2 with h | h <;> simp [h]
        rw [if_pos hb2]
      · rw [if_neg h2]
        have hb2 : (env.BEARER_TOKEN.getD "" != "" ||
            parseBoolean env.AUTH_ENABLED) = false := by
          push_neg at h2
          simp [h2.1, h2.2]
        rw [if_neg (by simp [hb2])]
  · unfold parseConfig
    dsimp only
    constructor
    · intro h
      exact beq_iff_eq.mp h
    · intro h
      simp [h]

/-! ### Claims about the two security adapters -/

/-- C1 counterexample: a request whose `Origin` header fails validation
is answered by the Hono middleware with a 500 (the validator's thrown
error reaches the generic `catch`), not with a 401 challenge. -/
theorem C1_counterexample :
    honoSecurityMiddleware
      { NODE_ENV := "production", MCP_PROTOCOL_VERSION := "2025-06-18",
        AUTH_STRATEGY := .bearer, AUTH_ENABLED := true,
        BEARER_TOKEN := some "abc" }
      { origin := some "http://evil.com", protocolVersion := Option.none,
        authorization := Option.none, sessionId := Option.none }
      "http://127.0.0.1:3000" "00000000-0000-4000-8000-000000000000" =
      .respond (honoInternalError "Origin not allowed: http://evil.com") ∧
    (honoInternalError "Origin not allowed: http://evil.com").status = 500 :=
  ⟨by decide, rfl⟩

/-- C1 amended: for every request that fails the origin or
protocol-version check, the Workers handler answers with the 401
challenge carrying the validator's message, while the Hono middleware
lets the thrown error reach its generic `catch` and answers with a 500
(JSON-RPC code -32603) — the two shapes do not agree. -/
theorem C1_amended (config : UnifiedConfig) (h : RequestHeaders)
    (o u sid msg : String) (hfail : gateChecks config h = .error msg) :
    (honoSecurityMiddleware config h o u = .respond (honoInternalError msg) ∧
      (honoInternalError msg).status = 500) ∧
    (checkAuthAndChallenge config h sid o =
        some (buildChallengeResponse o sid (some msg)) ∧
      (buildChallengeResponse o sid (some msg)).status = 401) := by
  refine ⟨⟨?_, rfl⟩, ?_, rfl⟩
  · unfold honoSecurityMiddleware
    rw [hfail]
  · unfold checkAuthAndChallenge
    rw [hfail]

/-- C1 amended, witness: the two responses at a concrete
origin-rejected request. -/
theorem C1_amended_witness :
    (honoSecurityMiddleware
        { NODE_ENV := "production", MCP_PROTOCOL_VERSION := "2025-06-18",
          AUTH_STRATEGY := .bearer, AUTH_ENABLED := true,
          BEARER_TOKEN := some "abc" }
        { origin := some "http://evil.com", protocolVersion := Option.none,
          authorization := Option.none, sessionId := Option.none }
        "http://127.0.0.1:3000" "u" =
        .respond (honoInternalError "Origin not allowed: http://evil.com") ∧
      (honoInternalError "Origin not allowed: http://evil.com").status = 500) ∧
    (checkAuthAndChallenge
        { NODE_ENV := "production", MCP_PROTOCOL_VERSION := "2025-06-18",
          AUTH_STRATEGY := .bearer, AUTH_ENABLED := true,
          BEARER_TOKEN := some "abc" }
        { origin := some "http://evil.com", protocolVersion := Option.none,
          authorization := Option.none, sessionId := Option.none }
        "sid" "http://127.0.0.1:3000" =
        some (buildChallengeResponse "http://127.0.0.1:3000" "sid"
          (some "Origin not allowed: http://evil.com")) ∧
      (buildChallengeResponse "http://127.0.0.1:3000" "sid"
        (some "Origin not allowed: http://evil.com")).status = 401) :=
  C1_amended
    { NODE_ENV := "production", MCP_PROTOCOL_VERSION := "2025-06-18",
      AUTH_STRATEGY := .bearer, AUTH_ENABLED := true,
      BEARER_TOKEN := some "abc" }
    { origin := some "http://evil.com", protocolVersion := Option.none,
      authorization := Option.none, sessionId := Option.none }
    "http://127.0.0.1:3000" "u" "sid" "Origin not allowed: http://evil.com"
    rfl

/-- C5 counterexample: with strategy `none`, a request with no
`Authorization` header and no `Origin` header but with a mismatched
protocol-version header is rejected by both shapes (the Workers handler
with a 401 challenge, the Hono middleware with a 500), not admitted. -/
theorem C5_counterexample :
    checkAuthAndChallenge
      { NODE_ENV := "production", MCP_PROTOCOL_VERSION := "2025-06-18",
        AUTH_STRATEGY := .none, AUTH_ENABLED := false,
        BEARER_TOKEN := Option.none }
      { origin := Option.none, protocolVersion := some "1999-01-01",
        authorization := Option.none, sessionId := Option.none }
      "s" "http://127.0.0.1:3000" =
      some (buildChallengeResponse "http://127.0.0.1:3000" "s"
        (some "Unsupported protocol version: 1999-01-01")) ∧
    honoSecurityMiddleware
      { NODE_ENV := "production", MCP_PROTOCOL_VERSION := "2025-06-18",
        AUTH_STRATEGY := .none, AUTH_ENABLED := false,
        BEARER_TOKEN := Option.none }
      { origin := Option.none, protocolVersion := some "1999-01-01",
        authorization := Option.none, sessionId := Option.none }
      "http://127.0.0.1:3000" "u" =
      .respond (honoInternalError "Unsupported protocol version: 1999-01-01") :=
  ⟨by decide, by decide⟩

/-- C5 amended: with strategy `none`, a request with no `Authorization`
header and no `Origin` header whose protocol-version header, when
present, matches the supported version is admitted by both shapes —
origin/protocol checks run, bearer checks are skipped entirely. -/
theorem C5_amended (config : UnifiedConfig) (h : RequestHeaders)
    (o u sid : String) (hstrat : config.AUTH_STRATEGY = .none)
    (horigin : h.origin = Option.none) (hauth : h.authorization = Option.none)
    (hproto : h.protocolVersion = Option.none ∨
      h.protocolVersion = some config.MCP_PROTOCOL_VERSION) :
    honoSecurityMiddleware config h o u = .proceed Option.none ∧
    checkAuthAndChallenge config h sid o = Option.none := by
  have hchecks : gateChecks config h = .ok () := by
    unfold gateChecks validateOrigin validateProtocolVersion
    rw [horigin]
    rcases hproto with hp | hp <;> rw [hp] <;> simp [Bind.bind, Except.bind]
  constructor
  · unfold honoSecurityMiddleware
    rw [hchecks]
    simp [hstrat]
  · unfold checkAuthAndChallenge
    rw [hchecks]
    simp [hstrat]

/-- C5 amended, witness: both adapters admit a strategy-`none` request
bearing no `Origin`, no `Authorization` and no protocol-version header. -/
theorem C5_amended_witness :
    honoSecurityMiddleware
      { NODE_ENV := "production", MCP_PROTOCOL_VERSION := "2025-06-18",
        AUTH_STRATEGY := .none, AUTH_ENABLED := false,
        BEARER_TOKEN := Option.none }
      { origin := Option.none, protocolVersion := Option.none,
        authorization := Option.none, sessionId := Option.none }
      "http://127.0.0.1:3000" "u" = .proceed Option.none ∧
    checkAuthAndChallenge
      { NODE_ENV := "production", MCP_PROTOCOL_VERSION := "2025-06-18",
        AUTH_STRATEGY := .none, AUTH_ENABLED := false,
        BEARER_TOKEN := Option.none }
      { origin := Option.none, protocolVersion := Option.none,
        authorization := Option.none, sessionId := Option.none }
      "s" "http://127.0.0.1:3000" = Option.none :=
  C5_amended
    { NODE_ENV := "production", MCP_PROTOCOL_VERSION := "2025-06-18",
      AUTH_STRATEGY := .none, AUTH_ENABLED := false,
      BEARER_TOKEN := Option.none }
    { origin := Option.none, protocolVersion := Option.none,
      authorization := Option.none, sessionId := Option.none }
    "http://127.0.0.1:3000" "u" "s" rfl rfl rfl (Or.inl rfl)

theorem challengeResponse_eq_build (o sid : String) (m : Option String) :
    challengeResponse o sid m = buildChallengeResponse o sid m := rfl

theorem bearer_append_ne_empty (t : String) : ("Bearer " ++ t) ≠ "" := by
  intro he
  have := congrArg String.data he
  rw [data_bearer_append] at this
  simp at this

/-- C4: with strategy `bearer` and no `Authorization` header (origin and
protocol checks passing), the response is a 401 with a `WWW-Authenticate`
header, and its session-id header echoes the request's session id when
one was supplied and is the freshly generated UUID otherwise (in the
Workers shape, the caller-supplied session id). -/
theorem C4_missing_auth_challenge (config : UnifiedConfig) (h : RequestHeaders)
    (o u sid : String)
    (hstrat : config.AUTH_STRATEGY = .bearer) (hen : config.AUTH_ENABLED = true)
    (hchecks : gateChecks config h = .ok ())
    (hauth : h.authorization = Option.none) :
    (honoSecurityMiddleware config h o u =
        .respond (challengeResponse o (h.sessionId.getD u) Option.none) ∧
      (challengeResponse o (h.sessionId.getD u) Option.none).status = 401 ∧
      (challengeResponse o (h.sessionId.getD u)
        Option.none).wwwAuthenticate.isSome = true ∧
      (∀ s', h.sessionId = some s' →
        (challengeResponse o (h.sessionId.getD u) Option.none).sessionId =
          some s') ∧
      (h.sessionId = Option.none →
        (challengeResponse o (h.sessionId.getD u) Option.none).sessionId =
          some u)) ∧
    (checkAuthAndChallenge config h sid o =
        some (buildChallengeResponse o sid Option.none) ∧
      (buildChallengeResponse o sid Option.none).status = 401 ∧
      (buildChallengeResponse o sid Option.none).wwwAuthenticate.isSome = true ∧
      (buildChallengeResponse o sid Option.none).sessionId = some sid) := by
  refine ⟨⟨?_, rfl, rfl, ?_, ?_⟩, ?_, rfl, rfl, rfl⟩
  · unfold honoSecurityMiddleware
    rw [hchecks]
    simp [hstrat, hen, hauth]
  · intro s' hs'
    rw [hs']
    rfl
  · intro hs
    rw [hs]
    rfl
  · unfold checkAuthAndChallenge
    rw [hchecks]
    simp [hstrat, hen, hauth, workersBearer]

/-- C4 witness: a concrete bearer-strategy request with no
`Authorization` header and a supplied session id "sess-1". -/
theorem C4_missing_auth_challenge_witness :
    honoSecurityMiddleware
      { NODE_ENV := "production", MCP_PROTOCOL_VERSION := "2025-06-18",
        AUTH_STRATEGY := .bearer, AUTH_ENABLED := true,
        BEARER_TOKEN := some "abc" }
      { origin := Option.none, protocolVersion := Option.none,
        authorization := Option.none, sessionId := some "sess-1" }
      "http://127.0.0.1:3000" "u" =
      .respond (challengeResponse "http://127.0.0.1:3000" "sess-1"
        Option.none) ∧
    (challengeResponse "http://127.0.0.1:3000" "sess-1"
      Option.none).status = 401 :=
  ⟨(C4_missing_auth_challenge
      { NODE_ENV := "production", MCP_PROTOCOL_VERSION := "2025-06-18",
        AUTH_STRATEGY := .bearer, AUTH_ENABLED := true,
        BEARER_TOKEN := some "abc" }
      { origin := Option.none, protocolVersion := Option.none,
        authorization := Option.none, sessionId := some "sess-1" }
      "http://127.0.0.1:3000" "u" "sess-1" rfl rfl rfl rfl).1.1,
   rfl⟩

/-- C3: with strategy `bearer`, a non-empty configured secret and a
well-formed `Authorization: Bearer <token>` header (checks passing),
both adapters admit exactly when the presented token equals the secret;
on mismatch both answer 401 with an "Invalid token" message. -/
theorem C3_bearer_match_decides (config : UnifiedConfig) (h : RequestHeaders)
    (o u sid t secret : String)
    (hstrat : config.AUTH_STRATEGY = .bearer) (hen : config.AUTH_ENABLED = true)
    (hsec : config.BEARER_TOKEN = some secret) (hsecne : secret ≠ "")
    (hchecks : gateChecks config h = .ok ())
    (hauth : h.authorization = some ("Bearer " ++ t)) (htne : t ≠ "")
    (hw : NoWs t) :
    ((∃ a, honoSecurityMiddleware config h o u = .proceed (some a)) ↔
      t = secret) ∧
    (checkAuthAndChallenge config h sid o = Option.none ↔ t = secret) ∧
    (t ≠ secret →
      honoSecurityMiddleware config h o u =
        .respond (challengeResponse o (h.sessionId.getD u)
          (some "Invalid token")) ∧
      checkAuthAndChallenge config h sid o =
        some (buildChallengeResponse o sid (some "Invalid token")) ∧
      (buildChallengeResponse o sid (some "Invalid token")).status = 401 ∧
      (buildChallengeResponse o sid (some "Invalid token")).body.message =
        "Invalid token") := by
  have hbH : honoExtractBearer ("Bearer " ++ t) = t :=
    honoExtractBearer_wellFormed hw
  have hbW : workersExtractBearer ("Bearer " ++ t) = t :=
    workersExtractBearer_wellFormed htne hw
  have hne := bearer_append_ne_empty t
  have hadmitH : t = secret →
      honoSecurityMiddleware config h o u =
        .proceed (some ⟨.bearer, "Bearer " ++ t, "Bearer " ++ t⟩) := by
    intro hts
    subst hts
    unfold honoSecurityMiddleware
    rw [hchecks]
    simp [hstrat, hen, hauth, hsec, hbH, hne, htne, hsecne]
  have hrejH : t ≠ secret →
      honoSecurityMiddleware config h o u =
        .respond (challengeResponse o (h.sessionId.getD u)
          (some "Invalid token")) := by
    intro hts
    unfold honoSecurityMiddleware
    rw [hchecks]
    simp [hstrat, hen, hauth, hsec, hbH, hne, htne, hsecne, hts]
  have hadmitW : t = secret →
      checkAuthAndChallenge config h sid o = Option.none := by
    intro hts
    subst hts
    unfold checkAuthAndChallenge
    rw [hchecks]
    simp [hstrat, hen, hauth, hsec, workersBearer, hbW, htne, hsecne]
  have hrejW : t ≠ secret →
      checkAuthAndChallenge config h sid o =
        some (buildChallengeResponse o sid (some "Invalid token")) := by
    intro hts
    unfold checkAuthAndChallenge
    rw [hchecks]
    simp [hstrat, hen, hauth, hsec, workersBearer, hbW, htne, hsecne, hts]
  refine ⟨⟨?_, ?_⟩, ⟨?_, ?_⟩, ?_⟩
  · rintro ⟨a, ha⟩
    by_contra hts
    rw [hrejH hts] at ha
    exact GateOutcome.noConfusion ha
  · intro hts
    exact ⟨_, hadmitH hts⟩
  · intro hn
    by_contra hts
    rw [hrejW hts] at hn
    exact Option.noConfusion hn
  · exact hadmitW
  · intro hts
    exact ⟨hrejH hts, hrejW hts, rfl, rfl⟩

/-- C3 witness: secret "abc123" with the matching and the mismatched
token of the specification's example scenario. -/
theorem C3_bearer_match_decides_witness :
    ((∃ a, honoSecurityMiddleware
        { NODE_ENV := "production", MCP_PROTOCOL_VERSION := "2025-06-18",
          AUTH_STRATEGY := .bearer, AUTH_ENABLED := true,
          BEARER_TOKEN := some "abc123" }
        { origin := some "http://127.0.0.1", protocolVersion := Option.none,
          authorization := some "Bearer abc123", sessionId := some "s1" }
        "http://127.0.0.1:3000" "u" = .proceed (some a)) ↔
      "abc123" = "abc123") := by
  have := C3_bearer_match_decides
    { NODE_ENV := "production", MCP_PROTOCOL_VERSION := "2025-06-18",
      AUTH_STRATEGY := .bearer, AUTH_ENABLED := true,
      BEARER_TOKEN := some "abc123" }
    { origin := some "http://127.0.0.1", protocolVersion := Option.none,
      authorization := some "Bearer abc123", sessionId := some "s1" }
    "http://127.0.0.1:3000" "u" "s1" "abc123" "abc123"
    rfl rfl rfl (by decide) rfl rfl (by decide) (by decide)
  exact this.1

/-- C2 counterexample: on the same request (headers
`Authorization: Bearer abc def`, session id "s1") under the same
configuration (secret "abc"), the two adapters extract different tokens
and make opposite decisions — the Hono middleware admits, the Workers
handler rejects with "Invalid token". -/
theorem C2_counterexample :
    (honoExtractBearer "Bearer abc def" = "abc" ∧
     workersExtractBearer "Bearer abc def" = "abc def") ∧
    honoSecurityMiddleware
      { NODE_ENV := "production", MCP_PROTOCOL_VERSION := "2025-06-18",
        AUTH_STRATEGY := .bearer, AUTH_ENABLED := true,
        BEARER_TOKEN := some "abc" }
      { origin := Option.none, protocolVersion := Option.none,
        authorization := some "Bearer abc def", sessionId := some "s1" }
      "http://127.0.0.1:3000" "u" =
      .proceed (some ⟨.bearer, "Bearer abc def", "Bearer abc def"⟩) ∧
    checkAuthAndChallenge
      { NODE_ENV := "production", MCP_PROTOCOL_VERSION := "2025-06-18",
        AUTH_STRATEGY := .bearer, AUTH_ENABLED := true,
        BEARER_TOKEN := some "abc" }
      { origin := Option.none, protocolVersion := Option.none,
        authorization := some "Bearer abc def", sessionId := some "s1" }
      "s1" "http://127.0.0.1:3000" =
      some (buildChallengeResponse "http://127.0.0.1:3000" "s1"
        (some "Invalid token")) :=
  ⟨⟨by decide, by decide⟩, by decide, by decide⟩

/-- C2 amended: the two adapters make the same admit/reject decision and
construct the same challenge for requests that pass the origin and
protocol checks, whose `Authorization` header is absent or of the exact
form `Bearer <token>` with a single space and a whitespace-free token,
and whose configuration is not misconfigured (a bearer strategy has a
non-empty secret); outside that well-formed fragment (extra spaces, tabs,
leading whitespace, trailing content, or a missing secret) extraction and
messages differ between the shapes. -/
theorem C2_amended (config : UnifiedConfig) (h : RequestHeaders)
    (o u t : String)
    (hchecks : gateChecks config h = .ok ())
    (hauth : h.authorization = Option.none ∨
      (h.authorization = some ("Bearer " ++ t) ∧ t ≠ "" ∧ NoWs t))
    (hsecret : config.AUTH_STRATEGY = .bearer →
      config.BEARER_TOKEN.getD "" ≠ "") :
    (∃ a, honoSecurityMiddleware config h o u = .proceed a ∧
        checkAuthAndChallenge config h (h.sessionId.getD u) o = Option.none) ∨
    (∃ r, honoSecurityMiddleware config h o u = .respond r ∧
        checkAuthAndChallenge config h (h.sessionId.getD u) o = some r) := by
  cases hcond : (!config.AUTH_ENABLED || config.AUTH_STRATEGY ==
      AuthStrategyType.none) with
  | true =>
    left
    refine ⟨Option.none, ?_, ?_⟩
    · unfold honoSecurityMiddleware
      rw [hchecks]
      simp [hcond]
    · unfold checkAuthAndChallenge
      rw [hchecks]
      simp [hcond]
  | false =>
    have hstrat : config.AUTH_STRATEGY = .bearer := by
      cases hst : config.AUTH_STRATEGY with
      | bearer => rfl
      | none => simp [hst] at hcond
    have hen : config.AUTH_ENABLED = true := by
      cases hA : config.AUTH_ENABLED with
      | false => rw [hA] at hcond; simp at hcond
      | true => rfl
    have hsec := hsecret hstrat
    rcases hauth with hnone | ⟨hsome, htne, hw⟩
    · right
      refine ⟨challengeResponse o (h.sessionId.getD u) Option.none, ?_, ?_⟩
      · unfold honoSecurityMiddleware
        rw [hchecks]
        simp [hen, hstrat, hnone]
      · unfold checkAuthAndChallenge
        rw [hchecks]
        rw [challengeResponse_eq_build]
        simp [hen, hstrat, hnone, workersBearer]
    · have hbH : honoExtractBearer ("Bearer " ++ t) = t :=
        honoExtractBearer_wellFormed hw
      have hbW : workersExtractBearer ("Bearer " ++ t) = t :=
        workersExtractBearer_wellFormed htne hw
      have hne := bearer_append_ne_empty t
      by_cases hts : t = config.BEARER_TOKEN.getD ""
      · left
        refine ⟨some ⟨.bearer, "Bearer " ++ t, "Bearer " ++ t⟩, ?_, ?_⟩
        · unfold honoSecurityMiddleware
          rw [hchecks]
          subst hts
          simp [hen, hstrat, hsome, hbH, hne, htne]
        · unfold checkAuthAndChallenge
          rw [hchecks]
          subst hts
          simp [hen, hstrat, hsome, workersBearer, hbW, htne, hsec]
      · right
        refine ⟨challengeResponse o (h.sessionId.getD u)
          (some "Invalid token"), ?_, ?_⟩
        · unfold honoSecurityMiddleware
          rw [hchecks]
          simp [hen, hstrat, hsome, hbH, hne, htne, hsec, hts]
        · unfold checkAuthAndChallenge
          rw [hchecks]
          rw [challengeResponse_eq_build]
          simp [hen, hstrat, hsome, workersBearer, hbW, htne, hsec, hts]

/-- C2 amended, witness: agreement on the well-formed request
`Authorization: Bearer abc` with secret "abc" (both admit). -/
theorem C2_amended_witness :
    (∃ a, honoSecurityMiddleware
        { NODE_ENV := "production", MCP_PROTOCOL_VERSION := "2025-06-18",
          AUTH_STRATEGY := .bearer, AUTH_ENABLED := true,
          BEARER_TOKEN := some "abc" }
        { origin := Option.none, protocolVersion := Option.none,
          authorization := some "Bearer abc", sessionId := some "s1" }
        "http://127.0.0.1:3000" "u" = .proceed a ∧
      checkAuthAndChallenge
        { NODE_ENV := "production", MCP_PROTOCOL_VERSION := "2025-06-18",
          AUTH_STRATEGY := .bearer, AUTH_ENABLED := true,
          BEARER_TOKEN := some "abc" }
        { origin := Option.none, protocolVersion := Option.none,
          authorization := some "Bearer abc", sessionId := some "s1" }
        "s1" "http://127.0.0.1:3000" = Option.none) ∨
    (∃ r, honoSecurityMiddleware
        { NODE_ENV := "production", MCP_PROTOCOL_VERSION := "2025-06-18",
          AUTH_STRATEGY := .bearer, AUTH_ENABLED := true,
          BEARER_TOKEN := some "abc" }
        { origin := Option.none, protocolVersion := Option.none,
          authorization := some "Bearer abc", sessionId := some "s1" }
        "http://127.0.0.1:3000" "u" = .respond r ∧
      checkAuthAndChallenge
        { NODE_ENV := "production", MCP_PROTOCOL_VERSION := "2025-06-18",
          AUTH_STRATEGY := .bearer, AUTH_ENABLED := true,
          BEARER_TOKEN := some "abc" }
        { origin := Option.none, protocolVersion := Option.none,
          authorization := some "Bearer abc", sessionId := some "s1" }
        "s1" "http://127.0.0.1:3000" = some r) :=
  C2_amended
    { NODE_ENV := "production", MCP_PROTOCOL_VERSION := "2025-06-18",
      AUTH_STRATEGY := .bearer, AUTH_ENABLED := true,
      BEARER_TOKEN := some "abc" }
    { origin := Option.none, protocolVersion := Option.none,
      authorization := some "Bearer abc", sessionId := some "s1" }
    "http://127.0.0.1:3000" "u" "abc"
    rfl (Or.inr ⟨rfl, by decide, by decide⟩) (fun _ => by decide)

end MapsMcp
